import Mathlib

/-!
Shallow embedding of the append pipeline of `csv2XLsheet.go`.

The program appends rows of delimited data to a named sheet of an existing
spreadsheet document.  The pipeline stages modelled here, each translated
from the corresponding lines of `main`:

* delimiter resolution (lines 61–73),
* record ingestion with start offset and quote stripping (lines 95–125),
* sheet geometry from the target sheet's row matrix (lines 154–167),
* row placement with capacity rejection (lines 170–195),
* the run-level ordering: ingestion happens before the sheet-existence
  check (lines 134–144), and the diagnostic log file is created lazily on
  the first failure (lines 102–113 and 175–186).

The external collaborators (the CSV tokenizer and the spreadsheet library)
are abstracted exactly at the boundaries the source uses them: one
`reader.Read()` outcome per physical line (a parsed record, or a parse
error carrying whatever fields were recovered), and a cell write as a
(column, row, value) triple.
-/

namespace CsvToXlsheet

/-- Delimiter resolution, from the `switch *delimiter` statement
(lines 61–73): `"csv"` maps to a comma, `"tab"` to a horizontal tab, any
other token of exactly one code point (`utf8.RuneCountInString == 1`,
which Lean's `String.length` also counts) to its first — only — code
point, and every other token is fatal (`none`). -/
def resolveDelim (token : String) : Option Char :=
  if token = "csv" then some ','
  else if token = "tab" then some '\t'
  else if token.length = 1 then token.data.head?
  else none

/-- Field sanitization, from `strings.ReplaceAll(record[i], "\"", "")`
(line 120): every quotation-mark character is removed. -/
def sanitizeField (s : String) : String :=
  String.mk (s.data.filter (fun c => c ≠ '"'))

/-- A whole record is sanitized field by field (lines 119–121). -/
def sanitizeRecord (r : List String) : List String :=
  r.map sanitizeField

/-- `strings.Join(fields, string(sep))`, used to rebuild the raw line for
diagnostic entries (lines 112 and 185). -/
def sepJoin (sep : Char) (fields : List String) : String :=
  String.intercalate (String.mk [sep]) fields

/-- One `reader.Read()` outcome: a successfully parsed record, or a parse
error together with the fields the reader recovered before failing. -/
inductive LineResult where
  | ok (fields : List String)
  | err (recovered : List String)
deriving DecidableEq

/-- `true` exactly on parse errors. -/
def isParseError : LineResult → Bool
  | LineResult.err _ => true
  | LineResult.ok _ => false

/-- The successfully parsed records of a source, in order. -/
def parsedRecords (lines : List LineResult) : List (List String) :=
  lines.filterMap (fun l => match l with
    | LineResult.ok fields => some fields
    | LineResult.err _ => none)

/-- Everything the ingest loop (lines 95–125) accumulates: the accepted
(sanitized) records in order, the unparseable-line count `errorCount`,
and the diagnostic lines written for unparseable input. -/
structure IngestOut where
  accepted : List (List String)
  errorCount : Nat
  logEntries : List String
deriving DecidableEq

/-- The ingest loop from line counter `n` on.  Translated from lines
95–125 of the source: a parse error logs
`"Error reading line: "` + the recovered fields rejoined with the
separator, bumps `errorCount`, and — because of the `continue` before
`lineNumber++` — leaves the line counter unchanged; a parsed line is
accepted (sanitized) exactly when `lineNumber >= startRow - 1`, and the
counter advances either way. -/
def ingestFrom (startRow : Int) (sep : Char) : Nat → List LineResult → IngestOut
  | _, [] => ⟨[], 0, []⟩
  | n, LineResult.err recovered :: rest =>
    let t := ingestFrom startRow sep n rest
    ⟨t.accepted, t.errorCount + 1,
      ("Error reading line: " ++ sepJoin sep recovered) :: t.logEntries⟩
  | n, LineResult.ok fields :: rest =>
    let t := ingestFrom startRow sep (n + 1) rest
    if (n : Int) ≥ startRow - 1 then
      ⟨sanitizeRecord fields :: t.accepted, t.errorCount, t.logEntries⟩
    else t

/-- The whole ingest pass: `lineNumber` starts at 0 (line 95). -/
def ingest (startRow : Int) (sep : Char) (lines : List LineResult) : IngestOut :=
  ingestFrom startRow sep 0 lines

/-- A small concrete source used by witnesses: an unparseable physical
line followed by two parseable ones. -/
def demoLines : List LineResult :=
  [LineResult.err ["x"], LineResult.ok ["a"], LineResult.ok ["b"]]

/-- Excel's maximum number of columns, the capacity used for an empty
sheet (line 163). -/
def excelMaxCols : Nat := 16384

/-- The append target's geometry (lines 154–167). -/
structure SheetGeometry where
  columnCapacity : Nat
  nextRow : Nat
deriving DecidableEq

/-- Column capacity from the sheet's row matrix: the first row's field
count when a row exists (line 160), else the `excelMaxCols` sentinel
(line 163). -/
def planCapacity : List (List String) → Nat
  | [] => excelMaxCols
  | first :: _ => first.length

/-- Sheet geometry from the row matrix: capacity as above, and
`nextRow = len(rows) + 1` (line 167). -/
def plan (rows : List (List String)) : SheetGeometry :=
  ⟨planCapacity rows, rows.length + 1⟩

/-- One `SetCellValue` call: 1-based column and row, and the value
(lines 191–194). -/
structure CellWrite where
  col : Nat
  row : Nat
  value : String
deriving DecidableEq

/-- Everything the placement loop (lines 170–195) produces: the cell
writes in order, the rejected-record count `notAppendedCount`, and the
diagnostic lines written for oversized records. -/
structure PlaceOut where
  writes : List CellWrite
  notAppendedCount : Nat
  logEntries : List String
deriving DecidableEq

/-- The placement loop from record index `i` on, translated from lines
170–195: a record with more fields than the capacity logs
`"Not appended (too many fields): "` + the fields rejoined with the
separator, bumps the count, and emits no writes; otherwise field `j`
(0-based) is written to column `j + 1`, row `nextRow + i`.  The index
`i` advances for rejected records too — `range` indexing in Go — so
rejection leaves a gap rather than compacting rows. -/
def placeFrom (geo : SheetGeometry) (sep : Char) : Nat → List (List String) → PlaceOut
  | _, [] => ⟨[], 0, []⟩
  | i, record :: rest =>
    let t := placeFrom geo sep (i + 1) rest
    if record.length > geo.columnCapacity then
      ⟨t.writes, t.notAppendedCount + 1,
        ("Not appended (too many fields): " ++ sepJoin sep record) :: t.logEntries⟩
    else
      ⟨record.enum.map (fun q => ⟨q.1 + 1, geo.nextRow + i, q.2⟩) ++ t.writes,
        t.notAppendedCount, t.logEntries⟩

/-- The whole placement pass over the accepted records (`for i, row :=
range csvData`, line 170). -/
def place (geo : SheetGeometry) (sep : Char) (records : List (List String)) : PlaceOut :=
  placeFrom geo sep 0 records

/-- `strings.TrimSuffix`: remove `suffix` from the end of `s` when it is
a suffix, else return `s` unchanged. -/
def trimSuffix (s suffix : String) : String :=
  if suffix.data.isSuffixOf s.data then
    String.mk (s.data.take (s.data.length - suffix.data.length))
  else s

/-- `filepath.Ext`: the suffix of the final path element beginning at its
last dot, or the empty string when that element has no dot. -/
def filepathExt (p : String) : String :=
  let elemRev := p.data.reverse.takeWhile (fun c => c ≠ '/')
  if elemRev.contains '.' then
    String.mk ('.' :: (elemRev.takeWhile (fun c => c ≠ '.')).reverse)
  else ""

/-- The diagnostic log path (line 76): the output name with its extension
stripped, plus `"-errors.log"`. -/
def logFileName (outputFileName : String) : String :=
  trimSuffix outputFileName (filepathExt outputFileName) ++ "-errors.log"

/-- The observable state of one full run that reaches placement: counts,
accepted records, diagnostic lines in detection order (parse failures
from the ingest pass, then capacity rejections from the placement pass),
whether the lazily-created log file exists (`hasErrors` in the source:
the file is created exactly when the first diagnostic line is written,
so it exists iff at least one line was written), and the cell writes. -/
structure RunResult where
  accepted : List (List String)
  errorCount : Nat
  notAppendedCount : Nat
  logEntries : List String
  logCreated : Bool
  writes : List CellWrite
deriving DecidableEq

/-- The pipeline composition for a run whose sheet check succeeds:
ingest (lines 95–125), plan (lines 154–167), place (lines 170–195). -/
def runResult (startRow : Int) (sep : Char) (lines : List LineResult)
    (matrix : List (List String)) : RunResult :=
  let ing := ingest startRow sep lines
  let pl := place (plan matrix) sep ing.accepted
  ⟨ing.accepted, ing.errorCount, pl.notAppendedCount,
    ing.logEntries ++ pl.logEntries,
    !(ing.logEntries ++ pl.logEntries).isEmpty,
    pl.writes⟩

/-- A run either aborts fatally because the target sheet does not exist
(lines 134–144) — recording the fatal message and whether the log file
had already been created by the ingest pass, which runs first — or
completes with a `RunResult`.  In the fatal case no cell write and no
output file is produced (`SaveAs` is never reached). -/
inductive RunOutcome where
  | fatalSheetMissing (message : String) (logCreatedAtAbort : Bool)
  | done (result : RunResult)
deriving DecidableEq

/-- One whole run, in source order: the ingest loop runs first (lines
95–125, possibly creating the diagnostic log), then the sheet-existence
check (lines 134–144) aborts fatally or the pipeline completes. -/
def run (startRow : Int) (sep : Char) (lines : List LineResult)
    (sheetNames : List String) (target : String)
    (matrix : List (List String)) : RunOutcome :=
  let ing := ingest startRow sep lines
  if sheetNames.contains target then
    RunOutcome.done (runResult startRow sep lines matrix)
  else
    RunOutcome.fatalSheetMissing
      ("Sheet '" ++ target ++ "' does not exist in the template file!")
      (!ing.logEntries.isEmpty)

end CsvToXlsheet

namespace CsvToXlsheet

theorem resolveDelim_singleton (c : Char) :
    resolveDelim (String.mk [c]) = some c := by
  have hcsv : String.mk [c] ≠ "csv" := by
    intro h
    have := congrArg String.length h
    simp [String.length] at this
  have htab : String.mk [c] ≠ "tab" := by
    intro h
    have := congrArg String.length h
    simp [String.length] at this
  simp [resolveDelim, hcsv, htab, String.length]

theorem filter_idem (p : Char → Bool) (l : List Char) :
    (l.filter p).filter p = l.filter p := by
  induction l with
  | nil => rfl
  | cons a l ih =>
    by_cases h : p a <;> simp [List.filter_cons, h, ih]

theorem ingestFrom_accepted (startRow : Int) (sep : Char) :
    ∀ (lines : List LineResult) (n : Nat),
      (ingestFrom startRow sep n lines).accepted
        = ((parsedRecords lines).map sanitizeRecord).drop (startRow - 1 - n).toNat := by
  intro lines
  induction lines with
  | nil => intro n; simp [ingestFrom, parsedRecords]
  | cons head rest ih =>
    intro n
    cases head with
    | err recovered =>
      simpa [ingestFrom, parsedRecords] using ih n
    | ok fields =>
      by_cases h : (n : Int) ≥ startRow - 1
      · have h0 : (startRow - 1 - (n : Int)).toNat = 0 := by omega
        have h1 : (startRow - 1 - ((n : Int) + 1)).toNat = 0 := by omega
        simp [ingestFrom, h, parsedRecords, ih (n + 1), h0, h1]
      · have hK : (startRow - 1 - (n : Int)).toNat
            = (startRow - 1 - ((n : Int) + 1)).toNat + 1 := by omega
        simp only [ingestFrom, h, if_neg, ite_false, parsedRecords,
          List.filterMap_cons]
        simp only [parsedRecords] at ih
        rw [ih (n + 1)]
        push_cast
        rw [hK]
        simp [parsedRecords]

theorem ingestFrom_errorCount (startRow : Int) (sep : Char) :
    ∀ (lines : List LineResult) (n : Nat),
      (ingestFrom startRow sep n lines).errorCount = lines.countP isParseError := by
  intro lines
  induction lines with
  | nil => intro n; simp [ingestFrom]
  | cons head rest ih =>
    intro n
    cases head with
    | err recovered => simp [ingestFrom, List.countP_cons, isParseError, ih n]
    | ok fields =>
      by_cases h : (n : Int) ≥ startRow - 1 <;>
        simp [ingestFrom, h, List.countP_cons, isParseError, ih (n + 1)]

theorem ingestFrom_logEntries (startRow : Int) (sep : Char) :
    ∀ (lines : List LineResult) (n : Nat),
      (ingestFrom startRow sep n lines).logEntries
        = lines.filterMap (fun l => match l with
            | LineResult.err recovered =>
                some ("Error reading line: " ++ sepJoin sep recovered)
            | LineResult.ok _ => none) := by
  intro lines
  induction lines with
  | nil => intro n; simp [ingestFrom]
  | cons head rest ih =>
    intro n
    cases head with
    | err recovered => simp [ingestFrom, ih n]
    | ok fields =>
      by_cases h : (n : Int) ≥ startRow - 1 <;> simp [ingestFrom, h, ih (n + 1)]

theorem placeFrom_writes (geo : SheetGeometry) (sep : Char) :
    ∀ (records : List (List String)) (i : Nat),
      (placeFrom geo sep i records).writes
        = (records.enumFrom i).flatMap (fun p =>
            if p.2.length > geo.columnCapacity then []
            else p.2.enum.map (fun q => ⟨q.1 + 1, geo.nextRow + p.1, q.2⟩)) := by
  intro records
  induction records with
  | nil => intro i; simp [placeFrom]
  | cons record rest ih =>
    intro i
    by_cases h : record.length > geo.columnCapacity <;>
      simp [placeFrom, h, List.enumFrom, ih (i + 1)]

theorem placeFrom_notAppended (geo : SheetGeometry) (sep : Char) :
    ∀ (records : List (List String)) (i : Nat),
      (placeFrom geo sep i records).notAppendedCount
        = records.countP (fun r => decide (r.length > geo.columnCapacity)) := by
  intro records
  induction records with
  | nil => intro i; simp [placeFrom]
  | cons record rest ih =>
    intro i
    by_cases h : record.length > geo.columnCapacity <;>
      simp [placeFrom, h, List.countP_cons, ih (i + 1)]

theorem placeFrom_logEntries (geo : SheetGeometry) (sep : Char) :
    ∀ (records : List (List String)) (i : Nat),
      (placeFrom geo sep i records).logEntries
        = (records.filter (fun r => decide (r.length > geo.columnCapacity))).map
            (fun r => "Not appended (too many fields): " ++ sepJoin sep r) := by
  intro records
  induction records with
  | nil => intro i; simp [placeFrom]
  | cons record rest ih =>
    intro i
    by_cases h : record.length > geo.columnCapacity <;>
      simp [placeFrom, h, List.filter_cons, ih (i + 1)]

theorem placeFrom_writes_length (geo : SheetGeometry) (sep : Char) :
    ∀ (records : List (List String)) (i : Nat),
      (placeFrom geo sep i records).writes.length
        = ((records.filter (fun r => decide (r.length ≤ geo.columnCapacity))).map
            List.length).sum := by
  intro records
  induction records with
  | nil => intro i; simp [placeFrom]
  | cons record rest ih =>
    intro i
    by_cases h : record.length > geo.columnCapacity
    · have h' : ¬ record.length ≤ geo.columnCapacity := by omega
      simp [placeFrom, h, h', List.filter_cons, ih (i + 1)]
    · have h' : record.length ≤ geo.columnCapacity := by omega
      simp [placeFrom, h, h', List.filter_cons, ih (i + 1)]

theorem ingest_log_length (startRow : Int) (sep : Char) (lines : List LineResult) :
    (ingest startRow sep lines).logEntries.length
      = (ingest startRow sep lines).errorCount := by
  rw [ingest, ingestFrom_logEntries, ingestFrom_errorCount]
  induction lines with
  | nil => rfl
  | cons head rest ih =>
    cases head <;> simp [List.countP_cons, isParseError, ih]

theorem place_log_length (geo : SheetGeometry) (sep : Char)
    (records : List (List String)) :
    (place geo sep records).logEntries.length
      = (place geo sep records).notAppendedCount := by
  rw [place, placeFrom_logEntries, placeFrom_notAppended, List.length_map,
    List.countP_eq_length_filter]

theorem runResult_log_length (startRow : Int) (sep : Char)
    (lines : List LineResult) (matrix : List (List String)) :
    (runResult startRow sep lines matrix).logEntries.length
      = (runResult startRow sep lines matrix).errorCount
        + (runResult startRow sep lines matrix).notAppendedCount := by
  simp only [runResult, List.length_append]
  rw [ingest_log_length, place_log_length]

theorem parsedRecords_length (lines : List LineResult) :
    (parsedRecords lines).length + lines.countP isParseError = lines.length := by
  induction lines with
  | nil => simp [parsedRecords]
  | cons head rest ih =>
    cases head with
    | err recovered =>
      simp only [parsedRecords, List.filterMap_cons, List.countP_cons] at *
      simp [isParseError]
      omega
    | ok fields =>
      simp only [parsedRecords, List.filterMap_cons, List.countP_cons] at *
      simp [isParseError]
      omega

end CsvToXlsheet

open CsvToXlsheet

/-- Claim C9: delimiter resolution maps `"csv"` to the comma, `"tab"` to
the horizontal tab, any other token of exactly one code point to that
character itself (the count is by code points, so non-ASCII separators
work), and fails (`none`) on every other token. -/
theorem delimiter_resolution_c9 :
    resolveDelim "csv" = some ','
    ∧ resolveDelim "tab" = some '\t'
    ∧ (∀ c : Char, resolveDelim (String.mk [c]) = some c)
    ∧ (∀ t : String, t ≠ "csv" → t ≠ "tab" → t.length ≠ 1 →
        resolveDelim t = none) := by
  refine ⟨rfl, rfl, resolveDelim_singleton, ?_⟩
  intro t h1 h2 h3
  simp [resolveDelim, h1, h2, h3]

/-- Witness for C9: the non-ASCII single-code-point token `"µ"` resolves to
itself, and the three-code-point token `"abc"` is rejected. -/
theorem delimiter_resolution_c9_witness :
    resolveDelim (String.mk ['µ']) = some 'µ'
    ∧ ("abc" ≠ "csv" ∧ "abc" ≠ "tab" ∧ "abc".length ≠ 1)
    ∧ resolveDelim "abc" = none :=
  ⟨delimiter_resolution_c9.2.2.1 'µ',
   ⟨by decide, by decide, by decide⟩,
   delimiter_resolution_c9.2.2.2 "abc" (by decide) (by decide) (by decide)⟩

/-- Claim C10: field sanitization is idempotent — stripping quotation
marks from an already-stripped field is a no-op. -/
theorem sanitize_idempotent_c10 (s : String) :
    sanitizeField (sanitizeField s) = sanitizeField s := by
  unfold sanitizeField
  exact congrArg String.mk (filter_idem _ s.data)

/-- Counterexample to claim C4 as stated: with start offset 2 the source
`["a"]; ["b"]` (two parseable physical lines) yields one accepted record
and zero unparseable lines, so accepted + unparseable = 1 ≠ 2 = total
physical lines.  The skipped first line is accounted for by neither
count. -/
theorem line_accounting_c4_counterexample :
    (ingest 2 ',' [LineResult.ok ["a"], LineResult.ok ["b"]]).accepted.length
      + (ingest 2 ',' [LineResult.ok ["a"], LineResult.ok ["b"]]).errorCount
      ≠ ([LineResult.ok ["a"], LineResult.ok ["b"]] : List LineResult).length := by
  decide

/-- Claim C4 (amended): accepted records plus unparseable lines plus the
parseable lines skipped by the start offset — `min (startRow − 1)
parseableCount`, which is zero whenever the start offset is at most 1 —
account for every physical line of the source exactly once. -/
theorem line_accounting_c4 (sep : Char) (lines : List LineResult) (startRow : Int) :
    (ingest startRow sep lines).accepted.length
      + (ingest startRow sep lines).errorCount
      + min (startRow - 1).toNat (parsedRecords lines).length
      = lines.length := by
  have ha := ingestFrom_accepted startRow sep lines 0
  have he := ingestFrom_errorCount startRow sep lines 0
  have hp := parsedRecords_length lines
  simp only [ingest]
  rw [ha, he, List.length_drop, List.length_map]
  omega

/-- Claim C5: start offsets 1 and 0 both accept every parseable line from
the first; a start offset N > 1 excludes exactly the first N−1 parseable
lines from the accepted sequence while the unparseable-line count and the
diagnostic entries are identical to a run with offset 1 (the skipped
lines are neither logged nor counted as errors). -/
theorem ingest_start_offset_c5 (sep : Char) (lines : List LineResult)
    (N : Int) (hN : 1 < N) :
    (ingest 1 sep lines).accepted = (parsedRecords lines).map sanitizeRecord
    ∧ (ingest 0 sep lines).accepted = (parsedRecords lines).map sanitizeRecord
    ∧ (ingest N sep lines).accepted
        = ((parsedRecords lines).map sanitizeRecord).drop (N - 1).toNat
    ∧ (ingest N sep lines).errorCount = (ingest 1 sep lines).errorCount
    ∧ (ingest N sep lines).logEntries = (ingest 1 sep lines).logEntries := by
  refine ⟨?_, ?_, ?_, ?_, ?_⟩
  · simp only [ingest]
    rw [ingestFrom_accepted]
    norm_num
  · simp only [ingest]
    rw [ingestFrom_accepted]
    norm_num [Int.toNat_of_nonpos]
  · simp only [ingest]
    rw [ingestFrom_accepted]
    congr 1
    omega
  · simp only [ingest]
    rw [ingestFrom_errorCount, ingestFrom_errorCount]
  · simp only [ingest]
    rw [ingestFrom_logEntries, ingestFrom_logEntries]

/-- Witness for C5 at offset 2 on the concrete source `demoLines`. -/
theorem ingest_start_offset_c5_witness :
    (1 : Int) < 2
    ∧ ((ingest 1 ',' demoLines).accepted = (parsedRecords demoLines).map sanitizeRecord
      ∧ (ingest 0 ',' demoLines).accepted = (parsedRecords demoLines).map sanitizeRecord
      ∧ (ingest 2 ',' demoLines).accepted
          = ((parsedRecords demoLines).map sanitizeRecord).drop ((2 : Int) - 1).toNat
      ∧ (ingest 2 ',' demoLines).errorCount = (ingest 1 ',' demoLines).errorCount
      ∧ (ingest 2 ',' demoLines).logEntries = (ingest 1 ',' demoLines).logEntries) :=
  ⟨by norm_num, ingest_start_offset_c5 ',' demoLines 2 (by norm_num)⟩

/-- Claim C6: the line index compared with the start offset advances only
on a successful parse, so offset N > 1 skips the first N−1 successfully
parsed lines, not the first N−1 physical lines.  Concretely, on
`demoLines` (unparseable line, then `["a"]`, then `["b"]`) offset 2 skips
the *parsed* line `["a"]` even though the unparseable line occupied the
first physical slot — a physical-line interpretation would have accepted
both `["a"]` and `["b"]`. -/
theorem line_index_c6 (sep : Char) (lines : List LineResult)
    (N : Int) (hN : 1 < N) :
    (ingest N sep lines).accepted
        = ((parsedRecords lines).map sanitizeRecord).drop (N - 1).toNat
    ∧ (ingest 2 ',' demoLines).accepted = [["b"]] := by
  constructor
  · simp only [ingest]
    rw [ingestFrom_accepted]
    congr 1
    omega
  · decide

/-- Witness for C6 at offset 2 on the concrete source `demoLines`. -/
theorem line_index_c6_witness :
    (1 : Int) < 2
    ∧ ((ingest 2 ',' demoLines).accepted
          = ((parsedRecords demoLines).map sanitizeRecord).drop ((2 : Int) - 1).toNat
      ∧ (ingest 2 ',' demoLines).accepted = [["b"]]) :=
  ⟨by norm_num, line_index_c6 ',' demoLines 2 (by norm_num)⟩

/-- Claim C1: the cell writes of a run are exactly those of the
in-capacity records, with the field at 0-based position j of the record
at 0-based index i going to column j + 1, row nextRow + i.  The row
index is the record's index in the full accepted sequence — an
oversized record contributes no writes but still consumes its row slot,
so gaps are not compacted. -/
theorem row_placement_c1 (geo : SheetGeometry) (sep : Char)
    (records : List (List String)) :
    (place geo sep records).writes
      = records.enum.flatMap (fun p =>
          if p.2.length > geo.columnCapacity then []
          else p.2.enum.map (fun q => ⟨q.1 + 1, geo.nextRow + p.1, q.2⟩)) := by
  have h := placeFrom_writes geo sep records 0
  simpa [place, List.enum] using h

/-- Claim C2: a record is rejected exactly when its field count exceeds
the column capacity; each rejected record produces exactly one
diagnostic entry of the form
`"Not appended (too many fields): "` + fields rejoined with the resolved
separator, and increments the rejected count by one; the writes emitted
come only from in-capacity records (one per field), so rejected records
emit zero cell writes; and every record of the run is processed — the
characterizations range over the whole record list, so a rejection never
aborts the run. -/
theorem capacity_rejection_c2 (geo : SheetGeometry) (sep : Char)
    (records : List (List String)) :
    (place geo sep records).notAppendedCount
        = (records.filter (fun r => decide (r.length > geo.columnCapacity))).length
    ∧ (place geo sep records).logEntries
        = (records.filter (fun r => decide (r.length > geo.columnCapacity))).map
            (fun r => "Not appended (too many fields): " ++ sepJoin sep r)
    ∧ (place geo sep records).writes.length
        = ((records.filter (fun r => decide (r.length ≤ geo.columnCapacity))).map
            List.length).sum := by
  refine ⟨?_, ?_, ?_⟩
  · rw [place, placeFrom_notAppended, List.countP_eq_length_filter]
  · rw [place, placeFrom_logEntries]
  · rw [place, placeFrom_writes_length]

/-- Counterexample to claim C3 as stated: with an empty target matrix
the capacity sentinel is the finite 16384, so a record of 16385 fields
IS rejected for width on an empty sheet (one rejection, zero writes),
contradicting "no row is rejected for width". -/
theorem sheet_geometry_c3_counterexample :
    (place (plan []) ',' [List.replicate 16385 "x"]).notAppendedCount = 1
    ∧ (place (plan []) ',' [List.replicate 16385 "x"]).writes = [] := by
  constructor <;>
    norm_num [place, placeFrom, plan, planCapacity, excelMaxCols]

/-- Claim C3 (amended): nextRow is always the existing row count plus 1;
an empty matrix yields the capacity sentinel 16384 (Excel's maximum
column count), so no record of at most 16384 fields is ever rejected for
width on an empty sheet; a non-empty matrix yields the first row's field
count (not the widest row's). -/
theorem sheet_geometry_c3 (matrix : List (List String)) :
    (plan matrix).nextRow = matrix.length + 1
    ∧ (plan []).columnCapacity = excelMaxCols
    ∧ (∀ r rest, (plan (r :: rest)).columnCapacity = r.length)
    ∧ (∀ (sep : Char) (records : List (List String)),
        (∀ r ∈ records, r.length ≤ excelMaxCols) →
        (place (plan []) sep records).notAppendedCount = 0) := by
  refine ⟨rfl, rfl, fun r rest => rfl, ?_⟩
  intro sep records hall
  rw [place, placeFrom_notAppended]
  rw [List.countP_eq_zero]
  intro r hr
  have := hall r hr
  simp only [plan, planCapacity, excelMaxCols, decide_eq_true_eq] at *
  omega

/-- Witness for C3's amended empty-sheet conjunct on a two-field
record. -/
theorem sheet_geometry_c3_witness :
    (∀ r ∈ [["a", "b"]], List.length r ≤ excelMaxCols)
    ∧ (place (plan []) ',' [["a", "b"]]).notAppendedCount = 0 :=
  ⟨by decide, (sheet_geometry_c3 []).2.2.2 ',' [["a", "b"]] (by decide)⟩

/-- Claim C7: the diagnostic log file exists after a run iff at least
one failure (unparseable line or capacity rejection) occurred; a run
with zero failures writes no diagnostic line, so the file is never
created; and its path is the output name with the extension stripped
plus `"-errors.log"` — concretely, output `pfoutput.xlsx` logs to
`pfoutput-errors.log`.  Creation-on-first-failure is modelled by
`logCreated`: the source creates the file exactly when the first
diagnostic line is written. -/
theorem diagnostic_log_c7 (startRow : Int) (sep : Char) (lines : List LineResult)
    (matrix : List (List String)) (out : String) :
    ((runResult startRow sep lines matrix).logCreated = true ↔
      0 < (runResult startRow sep lines matrix).errorCount
          + (runResult startRow sep lines matrix).notAppendedCount)
    ∧ ((runResult startRow sep lines matrix).errorCount
          + (runResult startRow sep lines matrix).notAppendedCount = 0 →
        (runResult startRow sep lines matrix).logEntries = [])
    ∧ logFileName out = trimSuffix out (filepathExt out) ++ "-errors.log"
    ∧ logFileName "pfoutput.xlsx" = "pfoutput-errors.log" := by
  have hlen := runResult_log_length startRow sep lines matrix
  have hlc : (runResult startRow sep lines matrix).logCreated
      = !(runResult startRow sep lines matrix).logEntries.isEmpty := rfl
  refine ⟨?_, ?_, rfl, by decide⟩
  · rw [hlc, ← hlen]
    cases (runResult startRow sep lines matrix).logEntries <;> simp
  · intro h
    have h0 : (runResult startRow sep lines matrix).logEntries.length = 0 := by
      omega
    exact List.length_eq_zero.mp h0

/-- Witness for C7: a clean run (empty source, empty sheet) has zero
failures and leaves the log empty. -/
theorem diagnostic_log_c7_witness :
    (runResult 1 ',' [] []).errorCount + (runResult 1 ',' [] []).notAppendedCount = 0
    ∧ (runResult 1 ',' [] []).logEntries = [] :=
  ⟨by decide, (diagnostic_log_c7 1 ',' [] [] "o.xlsx").2.1 (by decide)⟩

/-- Counterexample to claim C8 as stated: the ingest pass runs before
the sheet-existence check, so with a source containing an unparseable
line and an unknown sheet name the run does abort fatally naming the
sheet — but the diagnostic log file has already been created
(`logCreatedAtAbort = true`), contradicting "before any log file is
written". -/
theorem sheet_check_c8_counterexample :
    run 1 ',' [LineResult.err ["x"]] ["Sheet1"] "Data" []
      = RunOutcome.fatalSheetMissing
          "Sheet 'Data' does not exist in the template file!" true := by
  decide

/-- Claim C8 (amended): if the supplied sheet name is not among the
document's sheets, the run aborts fatally with a message naming the
sheet, before any cell write and before the output file is written
(`SaveAs` is never reached); the diagnostic log, however, has already
been created at abort exactly when the ingest pass — which runs before
the sheet check — logged at least one unparseable line. -/
theorem sheet_check_c8 (startRow : Int) (sep : Char) (lines : List LineResult)
    (sheetNames : List String) (target : String) (matrix : List (List String))
    (h : sheetNames.contains target = false) :
    run startRow sep lines sheetNames target matrix
      = RunOutcome.fatalSheetMissing
          ("Sheet '" ++ target ++ "' does not exist in the template file!")
          (!(ingest startRow sep lines).logEntries.isEmpty) := by
  have h' : target ∉ sheetNames := by simpa using h
  simp [run, h']

/-- Witness for C8 on a clean source and an unknown sheet name. -/
theorem sheet_check_c8_witness :
    (["Sheet1"] : List String).contains "Data" = false
    ∧ run 1 ',' [] ["Sheet1"] "Data" []
        = RunOutcome.fatalSheetMissing
            ("Sheet '" ++ "Data" ++ "' does not exist in the template file!")
            (!(ingest 1 ',' ([] : List LineResult)).logEntries.isEmpty) :=
  ⟨by decide, sheet_check_c8 1 ',' [] ["Sheet1"] "Data" [] (by decide)⟩
